import Mathlib

/-!
Verification development for the Forge dashboard feature queue.

The program under study is the Dashboard component found in
src/app/page.tsx and, in a fuller revision, in src/unnamed/part_000
(second document, which adds parseSpec, addFeature, moveToTop and moveUp).
Features are rows of a store table; the component derives counts and a
control-plane status from them and issues read-modify-write mutations.

Modelling choices:
- JS strings are modelled as Lean strings, with the handful of JS string
  operations the code uses (trim, split, startsWith, first-occurrence
  replace, join) reimplemented over the character list so that they are
  fully executable by kernel reduction.
- JS numbers holding priorities are modelled as rationals; the code only
  ever adds or subtracts small constants (1, 1.5) and takes min and max,
  so no floating-point rounding is observable at these magnitudes.
- The NaN value that JS division can produce is modelled by Option: none
  stands for the non-finite result of 0/0.
-/

namespace Forge

/-! ## JS string primitives over character lists -/

/-- Whitespace test covering the characters relevant to the dashboard
input format; mirrors the effect of the JS trim on such input. -/
def isSpaceChar (c : Char) : Bool :=
  c = ' ' || c = '\t' || c = '\n' || c = '\r'

/-- Drops whitespace from both ends of a character list. -/
def trimChars (l : List Char) : List Char :=
  ((l.dropWhile isSpaceChar).reverse.dropWhile isSpaceChar).reverse

/-- Model of the JS String.prototype.trim. -/
def jsTrim (s : String) : String := ⟨trimChars s.data⟩

/-- Splits a character list on a separator character, keeping empty
segments, exactly as the JS split with a one-character separator does. -/
def splitOnChar (sep : Char) : List Char → List (List Char)
  | [] => [[]]
  | c :: cs =>
    let r := splitOnChar sep cs
    if c = sep then [] :: r
    else
      match r with
      | [] => [[c]]
      | h :: t => (c :: h) :: t

/-- Model of the JS split on a newline, as in spec.trim().split(backslash-n). -/
def jsSplitLines (s : String) : List String :=
  (splitOnChar '\n' s.data).map (fun l => ⟨l⟩)

/-- Model of the JS String.prototype.startsWith. -/
def jsStartsWith (s pre : String) : Bool := pre.data.isPrefixOf s.data

/-- Replaces the first occurrence of a pattern in a character list, as the
JS String.prototype.replace with a string pattern does. -/
def replaceFirstChars (pat rep : List Char) : List Char → List Char
  | [] => []
  | c :: cs =>
    if pat.isPrefixOf (c :: cs) then rep ++ (c :: cs).drop pat.length
    else c :: replaceFirstChars pat rep cs

/-- Model of the JS String.prototype.replace with string arguments. -/
def jsReplaceFirst (s pat rep : String) : String :=
  ⟨replaceFirstChars pat.data rep.data s.data⟩

/-- Joins strings with a separator, as the JS Array.prototype.join. -/
def joinChars (sep : List Char) : List (List Char) → List Char
  | [] => []
  | [x] => x
  | x :: y :: ys => x ++ sep ++ joinChars sep (y :: ys)

/-- Model of the JS join with a newline separator. -/
def jsJoinLines (xs : List String) : String :=
  ⟨joinChars ['\n'] (xs.map String.data)⟩

/-- Model of the JS falsy-or on strings: a || b is b when a is the empty
string and a otherwise. Used in addFeature for the description default. -/
def jsOrStr (a b : String) : String := if a = "" then b else a

/-! ## Data model (section 3 of the spec; the Feature interface in the
source). The store-assigned id is opaque text; timestamps are opaque text
set only by specific transitions. -/

/-- Status values a feature row can carry (the five string literals the
source compares against). -/
inductive Status
  | pending
  | inProgress
  | completed
  | failed
  | skipped
deriving DecidableEq

/-- A feature row, after the Feature interface of the source. -/
structure Feature where
  id : String
  name : String
  description : String
  category : String
  priority : ℚ
  status : Status
  instructions : String := ""
  startedAt : Option String := none
  completedAt : Option String := none
  errorMessage : Option String := none
  retryCount : Nat := 0
deriving DecidableEq

/-! ## Derived queue views (the filter and length expressions computed on
every render in the source, part_000 lines 432 to 441). -/

/-- Count of features whose status is completed. -/
def completedCount (fs : List Feature) : Nat :=
  (fs.filter (fun f => f.status = Status.completed)).length

/-- Count of features whose status is pending. -/
def pendingCount (fs : List Feature) : Nat :=
  (fs.filter (fun f => f.status = Status.pending)).length

/-- Count of features whose status is in progress. -/
def inProgressCount (fs : List Feature) : Nat :=
  (fs.filter (fun f => f.status = Status.inProgress)).length

/-- The pending subset of the queue, as addFeature and moveToTop filter it. -/
def pendingFeatures (fs : List Feature) : List Feature :=
  fs.filter (fun f => f.status = Status.pending)

/-- Priorities of the pending features, the list the source spreads into
Math.min and Math.max. -/
def pendingPriorities (fs : List Feature) : List ℚ :=
  (pendingFeatures fs).map (fun f => f.priority)

/-- Math.min over the pending priorities. Math.min of an empty spread is
the non-real value Infinity, rendered here as none; every claim about the
minimum assumes at least one pending feature. -/
def minPending (fs : List Feature) : Option ℚ :=
  match pendingPriorities fs with
  | [] => none
  | p :: ps => some (ps.foldl min p)

/-! ## Store mutations (read-modify-write calls in the source). A
supabase update with an id filter patches every row whose id matches. -/

/-- Patches every row whose id matches, leaving the rest untouched;
models update(...).eq(id, id) against the features table. -/
def updateById (fs : List Feature) (id : String) (patch : Feature → Feature) :
    List Feature :=
  fs.map (fun f => if f.id = id then patch f else f)

/-- Operator skip: sets status to skipped (part_000 lines 401 to 405). -/
def skipFeature (fs : List Feature) (id : String) : List Feature :=
  updateById fs id (fun f => { f with status := Status.skipped })

/-- Operator retry, also used for re-queue: sets status to pending, resets
the retry counter and clears the error text (part_000 lines 407 to 411 and
src/app/page.tsx line 81). -/
def retryFeature (fs : List Feature) (id : String) : List Feature :=
  updateById fs id
    (fun f => { f with status := Status.pending, retryCount := 0, errorMessage := none })

/-- Earlier revision of retry kept in the first document of part_000
(lines 104 to 107): it resets the counter but does not touch the error
text. Superseded by retryFeature above in both later revisions. -/
def retryFeatureV1 (fs : List Feature) (id : String) : List Feature :=
  updateById fs id (fun f => { f with status := Status.pending, retryCount := 0 })

/-- Operator mark-complete: sets status to completed and stamps the
completion time (part_000 lines 413 to 417). -/
def markCompleted (fs : List Feature) (id : String) (now : String) : List Feature :=
  updateById fs id (fun f => { f with status := Status.completed, completedAt := some now })

/-- Operator delete: removes the row (part_000 lines 419 to 424). -/
def deleteFeature (fs : List Feature) (id : String) : List Feature :=
  fs.filter (fun f => ¬ (f.id = id))

/-! ## Priority reordering (part_000 lines 353 to 399). -/

/-- Move to top (part_000 lines 385 to 391): recomputes the minimum over
the pending priorities at call time and writes min minus 1. The none case
is Math.min over an empty spread, which is Infinity and not a real
number; the sheet offers the button only on a pending feature, so a
pending feature always exists at the call. -/
def moveToTop (fs : List Feature) (id : String) : Option (List Feature) :=
  match minPending fs with
  | none => none
  | some m => some (updateById fs id (fun f => { f with priority := m - 1 }))

/-- Move up (part_000 lines 393 to 399): finds the clicked row and writes
its priority minus the fixed fractional constant 1.5. -/
def moveUp (fs : List Feature) (id : String) : List Feature :=
  match fs.find? (fun f => f.id = id) with
  | none => fs
  | some f => updateById fs id (fun g => { g with priority := f.priority - 3 / 2 })

/-- Priority for an appended feature (part_000 lines 353 to 357):
Math.max over the pending priorities plus 1, or the baseline 100 when no
pending feature exists. -/
def appendPriority (fs : List Feature) : ℚ :=
  match pendingPriorities fs with
  | [] => 100
  | p :: ps => ps.foldl max p + 1

/-- Priority chosen by addFeature (part_000 line 358): 0 when startNow is
set, otherwise the append priority. -/
def newPriority (fs : List Feature) (startNow : Bool) : ℚ :=
  if startNow then 0 else appendPriority fs

/-! ## Engine control plane (part_000 lines 438 to 441 and the status
pill at lines 463 to 474). -/

/-- The three display states the status pill renders. -/
inductive EngineStatus
  | running
  | pausing
  | paused
deriving DecidableEq

/-- Whether any feature is in progress (isBuilding in the source). -/
def isBuilding (fs : List Feature) : Bool :=
  decide (0 < inProgressCount fs)

/-- isRunning in the source: building or not paused. -/
def isRunning (fs : List Feature) (enginePaused : Bool) : Bool :=
  isBuilding fs || !enginePaused

/-- isPausing in the source: paused while still building. -/
def isPausing (fs : List Feature) (enginePaused : Bool) : Bool :=
  enginePaused && isBuilding fs

/-- The status pill text (part_000 line 473): pausing wins, then running,
else paused. -/
def displayStatus (fs : List Feature) (enginePaused : Bool) : EngineStatus :=
  if isPausing fs enginePaused then EngineStatus.pausing
  else if isRunning fs enginePaused then EngineStatus.running
  else EngineStatus.paused

/-- Reference definition written from the spec wording of section 4.4 for
comparison with displayStatus: pausing when paused with a build in
flight, paused when paused and idle, running when not paused. -/
def specStatusOfFlags (enginePaused : Bool) (buildingCount : Nat) : EngineStatus :=
  if enginePaused then
    (if 0 < buildingCount then EngineStatus.pausing else EngineStatus.paused)
  else EngineStatus.running

/-! ## Progress computation (part_000 lines 623 to 631, page.tsx line
172). JS numbers that may be NaN are modelled as Option: none is the
non-finite outcome of dividing zero by zero. On the reachable domain the
numerator completedCount is at most the denominator length, so a zero
denominator forces a zero numerator and none models exactly NaN. -/

/-- JS division: none models the NaN produced when the denominator is 0. -/
def jsDiv (a b : ℚ) : Option ℚ :=
  if b = 0 then none else some (a / b)

/-- The fraction completed divided by total, as the source computes it. -/
def progressFrac (fs : List Feature) : Option ℚ :=
  jsDiv (completedCount fs : ℚ) (fs.length : ℚ)

/-- Math.round((completed/total)*100): NaN propagates through the
multiplication and the rounding. -/
def progressPctRounded (fs : List Feature) : Option ℤ :=
  (progressFrac fs).map (fun q => round (q * 100))

/-- The percentage text actually rendered: the JS falsy-or turns a NaN
rounding result into 0 (a 0 result is mapped to 0 as well, so getD is an
exact model). -/
def progressPctDisplayed (fs : List Feature) : ℤ :=
  (progressPctRounded fs).getD 0

/-- The width expression of the progress bar: (completed/total)*100 with
no fallback, so the NaN of an empty queue flows into the style. -/
def progressBarWidth (fs : List Feature) : Option ℚ :=
  (progressFrac fs).map (fun q => q * 100)

/-! ## Bulk-insert parsing (parseSpec, part_000 lines 322 to 343). -/

/-- The record parseSpec returns. -/
structure ParsedSpec where
  name : String
  category : String
  description : String
  instructions : String
deriving DecidableEq

/-- Mutable locals of the parseSpec loop. -/
structure ParseState where
  name : String
  category : String
  description : String
  instructionLines : List String
  inInstructions : Bool
deriving DecidableEq

/-- Initial locals of parseSpec (part_000 lines 324 to 326): empty name
and description, the baseline category crm, no instruction lines yet. -/
def parseInit : ParseState :=
  { name := "", category := "crm", description := "",
    instructionLines := [], inInstructions := false }

/-- One iteration of the for-loop in parseSpec (part_000 lines 328 to
340): marker lines overwrite the matching local, a trimmed separator of
three dashes switches to instruction mode, later lines accumulate. -/
def parseLine (st : ParseState) (line : String) : ParseState :=
  if jsStartsWith line "NAME:" then
    { st with name := jsTrim (jsReplaceFirst line "NAME:" "") }
  else if jsStartsWith line "CATEGORY:" then
    { st with category := jsTrim (jsReplaceFirst line "CATEGORY:" "") }
  else if jsStartsWith line "DESCRIPTION:" then
    { st with description := jsTrim (jsReplaceFirst line "DESCRIPTION:" "") }
  else if jsTrim line = "---" then
    { st with inInstructions := true }
  else if st.inInstructions then
    { st with instructionLines := st.instructionLines ++ [line] }
  else st

/-- The lines parseSpec iterates over: the input trimmed, then split on
newlines. -/
def specLines (spec : String) : List String :=
  jsSplitLines (jsTrim spec)

/-- parseSpec (part_000 lines 322 to 343): folds the loop body over the
lines and joins the accumulated instruction lines with newlines, trimming
the result. -/
def parseSpec (spec : String) : ParsedSpec :=
  let st := (specLines spec).foldl parseLine parseInit
  { name := st.name, category := st.category, description := st.description,
    instructions := jsTrim (jsJoinLines st.instructionLines) }

/-! ## addFeature (part_000 lines 345 to 383). The store calls it can
issue are modelled explicitly so that both the rejection path (no call at
all) and the order insert-then-unpause are visible. -/

/-- The toast text of the validation failure (part_000 line 349). -/
def missingNameMsg : String := "Missing NAME: in spec"

/-- The row addFeature inserts (part_000 lines 360 to 367): description
falls back to the name through the JS falsy-or, the status is pending. -/
structure NewRecord where
  name : String
  description : String
  category : String
  priority : ℚ
  status : Status
  instructions : String
deriving DecidableEq

/-- Builds the inserted row from the parse result and the computed
priority. -/
def buildRecord (fs : List Feature) (startNow : Bool) (p : ParsedSpec) : NewRecord :=
  { name := p.name, description := jsOrStr p.description p.name,
    category := p.category, priority := newPriority fs startNow,
    status := Status.pending, instructions := p.instructions }

/-- Outcome of addFeature before any store call is issued. -/
inductive AddResult
  | failure (msg : String)
  | success (rec : NewRecord)
deriving DecidableEq

/-- The validation step of addFeature (part_000 lines 346 to 351): an
empty parsed name is rejected with the toast, anything else builds the
row to insert. -/
def addFeatureResult (fs : List Feature) (startNow : Bool) (input : String) : AddResult :=
  let parsed := parseSpec input
  if parsed.name = "" then AddResult.failure missingNameMsg
  else AddResult.success (buildRecord fs startNow parsed)

/-- A store call addFeature can issue. -/
inductive StoreOp
  | insertFeature (rec : NewRecord)
  | configUpsert (key value : String)
deriving DecidableEq

/-- The store calls addFeature issues, in order (part_000 lines 345 to
383, with the insert reported successful): nothing on validation failure;
otherwise the insert, followed by the engine-unpause config write exactly
when startNow is set and the engine is paused. -/
def addFeatureOps (fs : List Feature) (enginePaused startNow : Bool)
    (input : String) : List StoreOp :=
  match addFeatureResult fs startNow input with
  | AddResult.failure _ => []
  | AddResult.success rec =>
    StoreOp.insertFeature rec ::
      (if startNow && enginePaused then [StoreOp.configUpsert "engine_paused" "false"] else [])

/-! ## Operator action dispatch (the action sheet, part_000 lines 531 to
579, and the click gate on the queue rows at line 651). A transition
request reaches a mutation only if the row can be selected at all, which
the gate forbids for a row that is in progress or completed, and only
through a button the sheet renders for the current status. -/

/-- The actions reachable from the action sheet. -/
inductive FeatureAction
  | moveTop
  | moveUpOne
  | markDone
  | skip
  | retry
  | requeue
  | del
deriving DecidableEq

/-- The click gate on a queue row (part_000 line 651): a row that is in
progress or completed cannot be selected, so its sheet never opens. -/
def clickGate (s : Status) : Bool :=
  ¬ (s = Status.inProgress) && ¬ (s = Status.completed)

/-- The buttons the sheet renders for a selected row (part_000 lines 539
to 572): reorder, done and skip for pending; retry and skip for failed;
re-queue for skipped; delete always shown once the sheet is open. -/
def sheetButtons (s : Status) : List FeatureAction :=
  (if s = Status.pending then
      [FeatureAction.moveTop, FeatureAction.moveUpOne,
       FeatureAction.markDone, FeatureAction.skip] else []) ++
  (if s = Status.failed then [FeatureAction.retry, FeatureAction.skip] else []) ++
  (if s = Status.skipped then [FeatureAction.requeue] else []) ++
  [FeatureAction.del]

/-- The mutation each button runs (part_000 lines 541 to 571): the
re-queue button calls the same retry mutation. Move to top falls back to
the unchanged list in the Infinity case that the sheet cannot reach. -/
def applyAction (fs : List Feature) (id : String) (now : String) :
    FeatureAction → List Feature
  | FeatureAction.moveTop => (moveToTop fs id).getD fs
  | FeatureAction.moveUpOne => moveUp fs id
  | FeatureAction.markDone => markCompleted fs id now
  | FeatureAction.skip => skipFeature fs id
  | FeatureAction.retry => retryFeature fs id
  | FeatureAction.requeue => retryFeature fs id
  | FeatureAction.del => deleteFeature fs id

/-- Result of a transition request: either it is refused before any store
call, or it runs one mutation. -/
inductive DispatchResult
  | rejected
  | applied (fs : List Feature)
deriving DecidableEq

/-- A transition request against the row with the given id: refused when
no such row exists, when the click gate blocks selection, or when the
sheet does not render the requested button; otherwise the mutation runs. -/
def dispatch (fs : List Feature) (id : String) (now : String)
    (act : FeatureAction) : DispatchResult :=
  match fs.find? (fun f => f.id = id) with
  | none => DispatchResult.rejected
  | some f =>
    if clickGate f.status && decide (act ∈ sheetButtons f.status) then
      DispatchResult.applied (applyAction fs id now act)
    else DispatchResult.rejected

/-- The feature table after a transition request: unchanged when the
request is refused. -/
def dispatchFeatures (fs : List Feature) (id : String) (now : String)
    (act : FeatureAction) : List Feature :=
  match dispatch fs id now act with
  | DispatchResult.rejected => fs
  | DispatchResult.applied fs2 => fs2

/-! ## Concrete fixture rows used to evaluate the theorems on explicit
inputs. -/

/-- A pending row with priority 5. -/
def qA : Feature :=
  { id := "a", name := "alpha", description := "da", category := "crm",
    priority := 5, status := Status.pending }

/-- A pending row with priority 7. -/
def qB : Feature :=
  { id := "b", name := "beta", description := "db", category := "crm",
    priority := 7, status := Status.pending }

/-- A pending row with priority 3, playing the late insert. -/
def qN : Feature :=
  { id := "n", name := "nu", description := "dn", category := "crm",
    priority := 3, status := Status.pending }

/-- A pending row with priority 99. -/
def wA : Feature :=
  { id := "a", name := "walpha", description := "da", category := "crm",
    priority := 99, status := Status.pending }

/-- A pending row with priority 100. -/
def wB : Feature :=
  { id := "b", name := "wbeta", description := "db", category := "crm",
    priority := 100, status := Status.pending }

/-- A row the worker currently builds. -/
def busyFeature : Feature :=
  { id := "w", name := "busy", description := "dw", category := "crm",
    priority := 1, status := Status.inProgress }

/-- A failed row with an error text and a non-zero retry count. -/
def brokeFeature : Feature :=
  { id := "e", name := "broke", description := "de", category := "crm",
    priority := 2, status := Status.failed,
    errorMessage := some "boom", retryCount := 4 }

/-- The image of the failed row under the retry patch. -/
def retriedFeature : Feature :=
  { brokeFeature with
    status := Status.pending
    retryCount := 0
    errorMessage := none }

/-- A completed row. -/
def doneFeature : Feature :=
  { id := "c", name := "done", description := "dc", category := "crm",
    priority := 1, status := Status.completed }

/-- A pending row with the negative priority -1, as produced by
move-to-top once the pending minimum has reached 0. -/
def negTop : Feature :=
  { id := "t", name := "negtop", description := "dt", category := "crm",
    priority := -1, status := Status.pending }

/-- A pending row with the baseline priority 100. -/
def baseFeature : Feature :=
  { id := "p", name := "base", description := "dp", category := "crm",
    priority := 100, status := Status.pending }

/-- The concrete bulk-insert text of the spec example. -/
def sampleSpecInput : String :=
  "NAME: Foo\nCATEGORY: crm\nDESCRIPTION: does thing\n---\nstep 1\nstep 2"

/-! ## Helper lemmas about the fold expressions behind Math.min and
Math.max and about updateById. -/

/-- The left fold of min is bounded by its seed. -/
theorem foldl_min_le_seed (ps : List ℚ) (a : ℚ) : ps.foldl min a ≤ a := by
  induction ps generalizing a with
  | nil => exact le_refl a
  | cons p ps ih =>
    exact le_trans (ih (min a p)) (min_le_left a p)

/-- The left fold of min is a lower bound of the seed and the elements. -/
theorem foldl_min_le (ps : List ℚ) (a x : ℚ) (h : x = a ∨ x ∈ ps) :
    ps.foldl min a ≤ x := by
  induction ps generalizing a with
  | nil =>
    rcases h with h | h
    · simp [h]
    · cases h
  | cons p ps ih =>
    show ps.foldl min (min a p) ≤ x
    rcases h with h | h
    · subst h
      exact le_trans (foldl_min_le_seed ps (min x p)) (min_le_left x p)
    · rcases List.mem_cons.mp h with h | h
      · subst h
        exact le_trans (foldl_min_le_seed ps (min a x)) (min_le_right a x)
      · exact ih (min a p) (Or.inr h)

/-- The left fold of max dominates its seed. -/
theorem le_foldl_max_seed (ps : List ℚ) (a : ℚ) : a ≤ ps.foldl max a := by
  induction ps generalizing a with
  | nil => exact le_refl a
  | cons p ps ih =>
    exact le_trans (le_max_left a p) (ih (max a p))

/-- The left fold of max is an upper bound of the seed and the elements. -/
theorem le_foldl_max (ps : List ℚ) (a x : ℚ) (h : x = a ∨ x ∈ ps) :
    x ≤ ps.foldl max a := by
  induction ps generalizing a with
  | nil =>
    rcases h with h | h
    · simp [h]
    · cases h
  | cons p ps ih =>
    show x ≤ ps.foldl max (max a p)
    rcases h with h | h
    · subst h
      exact le_trans (le_max_left x p) (le_foldl_max_seed ps (max x p))
    · rcases List.mem_cons.mp h with h | h
      · subst h
        exact le_trans (le_max_right a x) (le_foldl_max_seed ps (max a x))
      · exact ih (max a p) (Or.inr h)

/-- The left fold of max is the seed or one of the elements. -/
theorem foldl_max_attained (ps : List ℚ) (a : ℚ) :
    ps.foldl max a = a ∨ ps.foldl max a ∈ ps := by
  induction ps generalizing a with
  | nil => exact Or.inl rfl
  | cons p ps ih =>
    have hstep : (p :: ps).foldl max a = ps.foldl max (max a p) := rfl
    rcases ih (max a p) with h | h
    · rcases le_total a p with hap | hpa
      · right
        rw [hstep, h, max_eq_right hap]
        exact List.mem_cons_self p ps
      · left
        rw [hstep, h, max_eq_left hpa]
    · right
      rw [hstep]
      exact List.mem_cons_of_mem p h

/-- Membership in the priority list of the pending subset. -/
theorem priority_mem_pendingPriorities (fs : List Feature) (g : Feature)
    (hg : g ∈ fs) (hs : g.status = Status.pending) :
    g.priority ∈ pendingPriorities fs := by
  unfold pendingPriorities pendingFeatures
  exact List.mem_map_of_mem _ (List.mem_filter.mpr ⟨hg, by simp [hs]⟩)

/-- The recomputed minimum bounds every pending priority from below. -/
theorem minPending_le (fs : List Feature) (m : ℚ) (h : minPending fs = some m)
    (g : Feature) (hg : g ∈ fs) (hs : g.status = Status.pending) :
    m ≤ g.priority := by
  have hmem := priority_mem_pendingPriorities fs g hg hs
  unfold minPending at h
  cases hpp : pendingPriorities fs with
  | nil => rw [hpp] at hmem; cases hmem
  | cons p ps =>
    rw [hpp] at h hmem
    injection h with h
    subst h
    rcases List.mem_cons.mp hmem with h | h
    · exact foldl_min_le ps p _ (Or.inl h)
    · exact foldl_min_le ps p _ (Or.inr h)

/-- Unfolding equation for appendPriority on an empty pending list. -/
theorem appendPriority_nil (fs : List Feature)
    (hpp : pendingPriorities fs = []) : appendPriority fs = 100 := by
  unfold appendPriority
  rw [hpp]

/-- Unfolding equation for appendPriority on a non-empty pending list. -/
theorem appendPriority_cons (fs : List Feature) (p : ℚ) (ps : List ℚ)
    (hpp : pendingPriorities fs = p :: ps) :
    appendPriority fs = ps.foldl max p + 1 := by
  unfold appendPriority
  rw [hpp]

/-- Every member of an updated table is the patched or untouched image of
a member of the original table. -/
theorem mem_updateById (fs : List Feature) (id : String) (patch : Feature → Feature)
    (g : Feature) (hg : g ∈ updateById fs id patch) :
    ∃ f ∈ fs, g = if f.id = id then patch f else f := by
  unfold updateById at hg
  rcases List.mem_map.mp hg with ⟨f, hf, he⟩
  exact ⟨f, hf, he.symm⟩

/-- A loop iteration on a line that does not start with the CATEGORY
marker leaves the category local untouched. -/
theorem parseLine_category (st : ParseState) (l : String)
    (h : jsStartsWith l "CATEGORY:" = false) :
    (parseLine st l).category = st.category := by
  unfold parseLine
  split
  · rfl
  · split
    · simp_all
    · split
      · rfl
      · split
        · rfl
        · split
          · rfl
          · rfl

/-- A loop iteration on a line that does not start with the DESCRIPTION
marker leaves the description local untouched. -/
theorem parseLine_description (st : ParseState) (l : String)
    (h : jsStartsWith l "DESCRIPTION:" = false) :
    (parseLine st l).description = st.description := by
  unfold parseLine
  split
  · rfl
  · split
    · rfl
    · split
      · simp_all
      · split
        · rfl
        · split
          · rfl
          · rfl

/-- A loop iteration on a line that does not start with the NAME marker
leaves the name local untouched. -/
theorem parseLine_name (st : ParseState) (l : String)
    (h : jsStartsWith l "NAME:" = false) :
    (parseLine st l).name = st.name := by
  unfold parseLine
  split
  · simp_all
  · split
    · rfl
    · split
      · rfl
      · split
        · rfl
        · split
          · rfl
          · rfl

/-- Folding the loop over lines without the CATEGORY marker preserves the
category local. -/
theorem foldl_parseLine_category (lines : List String) (st : ParseState)
    (h : ∀ l ∈ lines, jsStartsWith l "CATEGORY:" = false) :
    (lines.foldl parseLine st).category = st.category := by
  induction lines generalizing st with
  | nil => rfl
  | cons l ls ih =>
    rw [List.foldl_cons,
      ih (parseLine st l) (fun x hx => h x (List.mem_cons_of_mem l hx)),
      parseLine_category st l (h l (List.mem_cons_self l ls))]

/-- Folding the loop over lines without the DESCRIPTION marker preserves
the description local. -/
theorem foldl_parseLine_description (lines : List String) (st : ParseState)
    (h : ∀ l ∈ lines, jsStartsWith l "DESCRIPTION:" = false) :
    (lines.foldl parseLine st).description = st.description := by
  induction lines generalizing st with
  | nil => rfl
  | cons l ls ih =>
    rw [List.foldl_cons,
      ih (parseLine st l) (fun x hx => h x (List.mem_cons_of_mem l hx)),
      parseLine_description st l (h l (List.mem_cons_self l ls))]

/-- Folding the loop over lines without the NAME marker preserves the
name local. -/
theorem foldl_parseLine_name (lines : List String) (st : ParseState)
    (h : ∀ l ∈ lines, jsStartsWith l "NAME:" = false) :
    (lines.foldl parseLine st).name = st.name := by
  induction lines generalizing st with
  | nil => rfl
  | cons l ls ih =>
    rw [List.foldl_cons,
      ih (parseLine st l) (fun x hx => h x (List.mem_cons_of_mem l hx)),
      parseLine_name st l (h l (List.mem_cons_self l ls))]

/-! ## Claim theorems -/

/-- C1: with at least one pending feature (the minimum m of the pending
priorities exists), move-to-top writes exactly m - 1 into the clicked
row; that value is strictly below the priority of every other pending
feature, and because the minimum is a function of the feature table at
the call, it also accounts for a pending feature appended after the
earlier computation: the written value stays strictly below the priority
of the late insert. -/
theorem moveToTop_recomputed_min (fs : List Feature) (id : String) (m : ℚ)
    (h : minPending fs = some m) :
    moveToTop fs id
        = some (updateById fs id (fun f => { f with priority := m - 1 })) ∧
    (∀ g ∈ updateById fs id (fun f => { f with priority := m - 1 }),
        g.id = id → g.priority = m - 1) ∧
    (∀ g ∈ updateById fs id (fun f => { f with priority := m - 1 }),
        g.id ≠ id → g.status = Status.pending → m - 1 < g.priority) ∧
    (∀ n : Feature, n.status = Status.pending → ∀ m2 : ℚ,
        minPending (fs ++ [n]) = some m2 → m2 - 1 < n.priority) := by
  refine ⟨by simp [moveToTop, h], ?_, ?_, ?_⟩
  · intro g hg hid
    rcases mem_updateById _ _ _ g hg with ⟨f, hf, he⟩
    by_cases hfid : f.id = id
    · simp [he, hfid]
    · rw [he, if_neg hfid] at hid
      exact absurd hid hfid
  · intro g hg hid hs
    rcases mem_updateById _ _ _ g hg with ⟨f, hf, he⟩
    by_cases hfid : f.id = id
    · rw [he, if_pos hfid] at hid
      exact absurd hfid hid
    · rw [he, if_neg hfid] at hs ⊢
      have := minPending_le fs m h f hf hs
      linarith
  · intro n hn m2 h2
    have := minPending_le (fs ++ [n]) m2 h2 n (by simp) hn
    linarith

/-- C2: a transition request (skip, retry, mark-complete or re-queue)
against a row whose status is in progress or completed is refused: the
click gate keeps the action sheet from opening, so no mutation call is
issued and the feature table is unchanged. -/
theorem workerStates_reject_transitions (fs : List Feature) (id now : String)
    (act : FeatureAction) (f : Feature)
    (hf : fs.find? (fun g => g.id = id) = some f)
    (hs : f.status = Status.inProgress ∨ f.status = Status.completed)
    (_hact : act ∈ [FeatureAction.skip, FeatureAction.retry,
                    FeatureAction.markDone, FeatureAction.requeue]) :
    dispatch fs id now act = DispatchResult.rejected ∧
    dispatchFeatures fs id now act = fs := by
  have hgate : clickGate f.status = false := by
    rcases hs with hs | hs <;> rw [hs] <;> decide
  have hd : dispatch fs id now act = DispatchResult.rejected := by
    simp [dispatch, hf, hgate]
  exact ⟨hd, by simp [dispatchFeatures, hd]⟩

/-- C3: for any prior error text and retry count, the retry mutation
leaves the matching row pending with a cleared error and a zero counter. -/
theorem retry_resets (fs : List Feature) (id : String) :
    ∀ g ∈ retryFeature fs id, g.id = id →
      g.status = Status.pending ∧ g.errorMessage = none ∧ g.retryCount = 0 := by
  intro g hg hid
  rcases mem_updateById _ _ _ g hg with ⟨f, hf, he⟩
  by_cases hfid : f.id = id
  · simp [he, hfid]
  · rw [he, if_neg hfid] at hid
    exact absurd hid hfid

/-- C4: the status pill agrees with the spec table in every case: pausing
when the engine is paused with a build in flight, paused when paused and
idle, running whenever the engine is not paused, whatever the number of
in-progress rows. -/
theorem displayStatus_matches_spec (fs : List Feature) (enginePaused : Bool) :
    displayStatus fs enginePaused
      = specStatusOfFlags enginePaused (inProgressCount fs) := by
  unfold displayStatus specStatusOfFlags isPausing isRunning isBuilding
  cases enginePaused <;> by_cases h : 0 < inProgressCount fs <;> simp [h]

/-- C5 counterexample: with an empty feature table the computed fraction
is the NaN of 0/0 (modelled as none), not 0, and the unguarded bar-width
expression carries that NaN as well; so the computation does divide zero
by zero and does produce NaN. -/
theorem progress_nan_on_empty :
    progressFrac ([] : List Feature) = none ∧
    progressFrac ([] : List Feature) ≠ some 0 ∧
    progressBarWidth ([] : List Feature) = none := by decide

/-- C5 amended: when the table is empty the raw fraction and the bar
width are NaN, but the falsy-or fallback renders the percentage text as
0; when the table is non-empty the fraction is exactly completed divided
by total. -/
theorem progress_guarded_display (fs : List Feature) :
    (fs.length = 0 →
      progressFrac fs = none ∧ progressPctDisplayed fs = 0 ∧
        progressBarWidth fs = none) ∧
    (fs.length ≠ 0 →
      progressFrac fs = some ((completedCount fs : ℚ) / (fs.length : ℚ))) := by
  constructor
  · intro h
    refine ⟨?_, ?_, ?_⟩ <;>
      simp [progressFrac, progressPctDisplayed, progressPctRounded,
        progressBarWidth, jsDiv, h]
  · intro h
    have hq : ((fs.length : ℚ)) ≠ 0 := by exact_mod_cast h
    simp [progressFrac, jsDiv, hq]

/-- C6 counterexample: a pending feature with priority -1 (reachable, for
example, by move-to-top past a priority-0 row) already sits below the
fixed start-now priority 0, so the start-now insert is neither at most
the pre-existing minimum nor first in ascending order. -/
theorem startNow_not_below_negative_min :
    negTop ∈ [negTop] ∧
    newPriority [negTop] true = 0 ∧
    ¬ newPriority [negTop] true ≤ negTop.priority := by decide

/-- C6 amended: a start-now insert always receives the fixed priority 0,
which is at most the priority of every pre-existing feature whenever all
pre-existing priorities are non-negative (as they are under the default
append scheme of baseline 100 and max plus 1); a pre-existing negative
priority breaks the sorts-first guarantee, as the counterexample shows. -/
theorem startNow_zero_priority (fs : List Feature) :
    newPriority fs true = 0 ∧
    ∀ f ∈ fs, 0 ≤ f.priority → newPriority fs true ≤ f.priority := by
  refine ⟨rfl, ?_⟩
  intro f _ h0
  simpa [newPriority] using h0

/-- C7: move-up writes the clicked priority minus the fixed fractional
constant 1.5 (three halves); for any preceding pending row whose signed
gap to the clicked row exceeds the negated constant, the single move-up
lands strictly before that row; appending without start-now uses the
maximum pending priority plus 1, or the fixed baseline 100 when no
pending feature exists. -/
theorem moveUp_fractional (fs : List Feature) (id : String) (f : Feature)
    (hf : fs.find? (fun g => g.id = id) = some f) :
    (∀ g ∈ moveUp fs id, g.id = id → g.priority = f.priority - 3 / 2) ∧
    (∀ r ∈ fs, r.status = Status.pending → r.priority < f.priority →
      -(3 / 2) < r.priority - f.priority →
      ∀ g ∈ moveUp fs id, g.id = id → g.priority < r.priority) ∧
    (pendingPriorities fs = [] → appendPriority fs = 100) ∧
    (∀ q ∈ pendingPriorities fs, q + 1 ≤ appendPriority fs) ∧
    (pendingPriorities fs ≠ [] →
      ∃ q ∈ pendingPriorities fs, appendPriority fs = q + 1) := by
  have hset : ∀ g ∈ moveUp fs id, g.id = id → g.priority = f.priority - 3 / 2 := by
    intro g hg hid
    rw [moveUp, hf] at hg
    rcases mem_updateById _ _ _ g hg with ⟨f2, _, he⟩
    by_cases hfid : f2.id = id
    · simp [he, hfid]
    · rw [he, if_neg hfid] at hid
      exact absurd hid hfid
  refine ⟨hset, ?_, ?_, ?_, ?_⟩
  · intro r _ _ _ hgap g hg hid
    have := hset g hg hid
    rw [this]
    linarith
  · intro h
    exact appendPriority_nil fs h
  · intro q hq
    rcases hpp : pendingPriorities fs with _ | ⟨p, ps⟩
    · rw [hpp] at hq; cases hq
    · rw [hpp] at hq
      have hle : q ≤ ps.foldl max p := by
        rcases List.mem_cons.mp hq with h | h
        · exact le_foldl_max ps p q (Or.inl h)
        · exact le_foldl_max ps p q (Or.inr h)
      rw [appendPriority_cons fs p ps hpp]
      linarith
  · intro h
    rcases hpp : pendingPriorities fs with _ | ⟨p, ps⟩
    · exact absurd hpp h
    · rcases foldl_max_attained ps p with ha | ha
      · refine ⟨p, ?_, ?_⟩
        · exact List.mem_cons_self p ps
        · rw [appendPriority_cons fs p ps hpp, ha]
      · refine ⟨ps.foldl max p, ?_, ?_⟩
        · exact List.mem_cons_of_mem p ha
        · rw [appendPriority_cons fs p ps hpp]

/-- C8: the sample bulk-insert text parses to the expected record; for
every input whose lines lack the CATEGORY marker the category stays at
the baseline crm, and for every input whose lines lack the DESCRIPTION
marker the parsed description is empty, so the falsy-or in addFeature
makes the inserted description default to the name. -/
theorem parseSpec_sample_and_defaults :
    (parseSpec sampleSpecInput
      = { name := "Foo", category := "crm", description := "does thing",
          instructions := "step 1\nstep 2" }) ∧
    (∀ s : String, (∀ l ∈ specLines s, jsStartsWith l "CATEGORY:" = false) →
      (parseSpec s).category = "crm") ∧
    (∀ s : String, (∀ l ∈ specLines s, jsStartsWith l "DESCRIPTION:" = false) →
      (parseSpec s).description = "" ∧
      jsOrStr (parseSpec s).description (parseSpec s).name = (parseSpec s).name) := by
  refine ⟨by decide, ?_, ?_⟩
  · intro s h
    have := foldl_parseLine_category (specLines s) parseInit h
    simpa [parseSpec] using this
  · intro s h
    have hd : (parseSpec s).description = "" := by
      have := foldl_parseLine_description (specLines s) parseInit h
      simpa [parseSpec] using this
    exact ⟨hd, by rw [hd]; rfl⟩

/-- C9: an input whose lines lack the NAME marker parses to an empty
name, and any input with an empty parsed name makes addFeature fail
validation with the missing-name toast before any store call: the result
is the failure value and the list of issued store calls is empty, so no
insert and no config write happens. -/
theorem missing_name_rejected (fs : List Feature) (enginePaused startNow : Bool)
    (input : String)
    (h : (∀ l ∈ specLines input, jsStartsWith l "NAME:" = false) ∨
         (parseSpec input).name = "") :
    addFeatureResult fs startNow input = AddResult.failure missingNameMsg ∧
    addFeatureOps fs enginePaused startNow input = [] := by
  have hname : (parseSpec input).name = "" := by
    rcases h with h | h
    · have := foldl_parseLine_name (specLines input) parseInit h
      simpa [parseSpec] using this
    · exact h
  have hres : addFeatureResult fs startNow input = AddResult.failure missingNameMsg := by
    simp [addFeatureResult, hname]
  exact ⟨hres, by simp [addFeatureOps, hres]⟩

/-- C10: a validated add-feature call with start-now issued while the
engine is paused issues exactly the insert followed by the config write
that sets engine_paused to false; with start-now but a running engine it
issues only the insert; and without start-now it never issues a config
write at all, whatever the paused flag. -/
theorem startNow_unpauses_after_insert (fs : List Feature) (input : String)
    (h : ¬ (parseSpec input).name = "") :
    addFeatureOps fs true true input
      = [StoreOp.insertFeature (buildRecord fs true (parseSpec input)),
         StoreOp.configUpsert "engine_paused" "false"] ∧
    addFeatureOps fs false true input
      = [StoreOp.insertFeature (buildRecord fs true (parseSpec input))] ∧
    (∀ enginePaused : Bool, ∀ k v : String,
      StoreOp.configUpsert k v ∉ addFeatureOps fs enginePaused false input) := by
  refine ⟨?_, ?_, ?_⟩
  · simp [addFeatureOps, addFeatureResult, h]
  · simp [addFeatureOps, addFeatureResult, h]
  · intro enginePaused k v
    simp [addFeatureOps, addFeatureResult, h]

/-! ## Witness evaluations of the hypothesised theorems on concrete
inputs -/

/-- Witness for C1 on a queue with pending priorities 5 and 7: the
minimum is 5, move-to-top writes 5 - 1 into row b, that value is below
the priority of row a, and the minimum recomputed after appending row n
with priority 3 yields a written value below 3 as well. -/
theorem moveToTop_recomputed_min_witness :
    (moveToTop [qA, qB] "b"
      = some (updateById [qA, qB] "b" (fun f => { f with priority := (5:ℚ) - 1 }))) ∧
    Feature.priority { qB with priority := (5:ℚ) - 1 } = (5:ℚ) - 1 ∧
    (5:ℚ) - 1 < qA.priority ∧
    (3:ℚ) - 1 < qN.priority := by
  have h := moveToTop_recomputed_min [qA, qB] "b" 5 (by decide)
  refine ⟨h.1, ?_, ?_, ?_⟩
  · exact h.2.1 _ (by with_unfolding_all decide) rfl
  · exact h.2.2.1 qA (by with_unfolding_all decide) (by decide) rfl
  · exact h.2.2.2 qN rfl 3 (by decide)

/-- Witness for C2: a skip request against the in-progress row is refused
and the table is unchanged. -/
theorem workerStates_reject_transitions_witness :
    dispatch [busyFeature] "w" "t0" FeatureAction.skip = DispatchResult.rejected ∧
    dispatchFeatures [busyFeature] "w" "t0" FeatureAction.skip = [busyFeature] :=
  workerStates_reject_transitions [busyFeature] "w" "t0" FeatureAction.skip
    busyFeature (by decide) (Or.inl rfl) (by decide)

/-- Witness for C3: retrying the failed row with error text boom and
retry count 4 yields a pending row with no error and count 0. -/
theorem retry_resets_witness :
    retriedFeature ∈ retryFeature [brokeFeature] "e" ∧
    (retriedFeature.status = Status.pending ∧ retriedFeature.errorMessage = none ∧
      retriedFeature.retryCount = 0) :=
  ⟨by decide, retry_resets [brokeFeature] "e" retriedFeature (by decide) rfl⟩

/-- Witness for the amended C5: the empty table renders the fallback 0
while the raw fraction and bar width are NaN, and a one-element completed
table yields the exact fraction. -/
theorem progress_guarded_display_witness :
    (progressFrac ([] : List Feature) = none ∧
      progressPctDisplayed ([] : List Feature) = 0 ∧
      progressBarWidth ([] : List Feature) = none) ∧
    progressFrac [doneFeature]
      = some ((completedCount [doneFeature] : ℚ) / (([doneFeature].length : ℚ))) :=
  ⟨(progress_guarded_display []).1 rfl,
   (progress_guarded_display [doneFeature]).2 (by decide)⟩

/-- Witness for the amended C6: against the baseline row of priority 100
the start-now priority 0 is indeed at most the pre-existing priority. -/
theorem startNow_zero_priority_witness :
    newPriority [baseFeature] true = 0 ∧
    newPriority [baseFeature] true ≤ baseFeature.priority :=
  ⟨(startNow_zero_priority [baseFeature]).1,
   (startNow_zero_priority [baseFeature]).2 baseFeature (by decide) (by decide)⟩

/-- Witness for C7 on pending priorities 99 and 100: move-up on the row
at 100 writes 100 minus three halves, which lands strictly before the row
at 99, and the append priority is 100 plus 1. -/
theorem moveUp_fractional_witness :
    ({ wB with priority := wB.priority - 3 / 2 } ∈ moveUp [wA, wB] "b" ∧
      Feature.priority { wB with priority := wB.priority - 3 / 2 }
        = wB.priority - 3 / 2) ∧
    Feature.priority { wB with priority := wB.priority - 3 / 2 } < wA.priority ∧
    wB.priority + 1 ≤ appendPriority [wA, wB] := by
  have h := moveUp_fractional [wA, wB] "b" wB (by decide)
  refine ⟨⟨?_, ?_⟩, ?_, ?_⟩
  · with_unfolding_all decide
  · exact h.1 _ (by with_unfolding_all decide) rfl
  · exact h.2.1 wA (by decide) rfl (by decide) (by with_unfolding_all decide) _
      (by with_unfolding_all decide) rfl
  · exact h.2.2.2.1 wB.priority (by decide)

/-- Witness for C8 on an input with only a NAME line: the category stays
at the baseline and the description defaults to the name. -/
theorem parseSpec_sample_and_defaults_witness :
    (parseSpec "NAME: X").category = "crm" ∧
    (parseSpec "NAME: X").description = "" ∧
    jsOrStr (parseSpec "NAME: X").description (parseSpec "NAME: X").name
      = (parseSpec "NAME: X").name :=
  ⟨parseSpec_sample_and_defaults.2.1 "NAME: X" (by decide),
   (parseSpec_sample_and_defaults.2.2 "NAME: X" (by decide)).1,
   (parseSpec_sample_and_defaults.2.2 "NAME: X" (by decide)).2⟩

/-- Witness for C9 on an input with only a CATEGORY line: validation
fails with the missing-name toast and no store call is issued. -/
theorem missing_name_rejected_witness :
    addFeatureResult [] false "CATEGORY: x" = AddResult.failure missingNameMsg ∧
    addFeatureOps [] false false "CATEGORY: x" = [] :=
  missing_name_rejected [] false false "CATEGORY: x" (Or.inl (by decide))

/-- Witness for C10 on a validated input: start-now on a paused engine
issues the insert and then the unpausing config write. -/
theorem startNow_unpauses_after_insert_witness :
    addFeatureOps [] true true "NAME: X"
      = [StoreOp.insertFeature (buildRecord [] true (parseSpec "NAME: X")),
         StoreOp.configUpsert "engine_paused" "false"] :=
  (startNow_unpauses_after_insert [] "NAME: X" (by decide)).1

end Forge
